import Mathlib

/-!
Verification of `django-publisa` (`src/publisa/models.py`) against its
natural-language specification.

The Django models and signal handlers are shallowly embedded:

* a `Publish` row is a structure holding the model fields together with its
  primary key `pk`; the record store (the database table) is a `List Publish`;
* `datetime` values are modelled as `Int` (an arbitrary linearly ordered,
  decidable time axis); `datetime.datetime.now()` is passed in as an explicit
  `now` argument, sampled once per call, exactly as the queryset evaluates it;
* the generic foreign key `content_object` is modelled by passing the resolved
  target entity explicitly (for the banner / mirror-field helpers) or by the
  reference pair `(content_type, object_id)` (for the neighbour lookups);
* an entity's optional reflective attributes (`allow_banners`,
  `publish_banner_image`, `published_at`) are `Option` fields where `none`
  means the attribute is not declared (`hasattr` is `Option.isSome`);
* Django's queryset with `Meta.ordering = ['-publish']` is modelled as an
  insertion sort by descending `publish` of the filtered store;
* Django's `Model._get_next_or_previous_by_FIELD` (the library code behind
  `get_previous_by_publish` / `get_next_by_publish`) filters the table by the
  extra kwargs and by `(publish, pk)` strictly lexicographically before /
  after `self`, orders by `('-publish', '-pk')` (resp. ascending) and takes
  the first row, raising `DoesNotExist` when the result set is empty; raising
  is modelled with `Except`;
* the cache backend is a structure of fallible operations (`Except`), so that
  error propagation through `post_save_cache_clear` is observable; the
  external `md5` hexdigest and `urlquote` helpers are parameters of the
  embedding.
-/

namespace Publisa

/-- One row of the `Publish` model: fields of `publisa.models.Publish` plus
its primary key `pk`.  `banner_image = none` models an empty (falsy)
`ImageField`. -/
structure Publish where
  pk : Nat
  publish : Int
  approved : Bool
  banner : Bool
  banner_image : Option String
  content_type : Nat
  object_id : Nat
deriving DecidableEq

/-- A target entity (the model a `Publish` row points at), restricted to the
attributes the core reads reflectively plus its primary key.  `none` in an
optional field means the attribute is not declared on the entity's model. -/
structure Entity where
  pk : Nat
  allow_banners : Option Bool
  publish_banner_image : Option String
  published_at : Option Int
deriving DecidableEq

/-- The filter condition of `PublishManager.published`:
`approved=True, publish__lte=now`. -/
def visible (now : Int) (r : Publish) : Bool :=
  r.approved && decide (r.publish ≤ now)

/-- The default queryset ordering `Meta.ordering = ['-publish']`: descending
by `publish`. -/
def pubDesc (a b : Publish) : Prop := b.publish ≤ a.publish

instance : DecidableRel pubDesc := fun a b =>
  inferInstanceAs (Decidable (b.publish ≤ a.publish))

instance : IsTotal Publish pubDesc := ⟨fun a b => le_total b.publish a.publish⟩

instance : IsTrans Publish pubDesc := ⟨fun _ _ _ hab hbc => le_trans hbc hab⟩

/-- `PublishManager.published`: the records of the store with
`approved=True` and `publish <= now`, in the default `-publish` ordering. -/
def published (now : Int) (store : List Publish) : List Publish :=
  List.insertionSort pubDesc (store.filter (visible now))

/-- The class-access branch of `PublishDescriptor.__get__` (`instance` is
`None`): compute `all_p`, the published records restricted to the model's
content type, then return
`model.objects.filter(pk__in=[p.object_id for p in all_p])` — the entity
table (in its own default order) filtered to the collected ids. -/
def descriptor_get_on_class (now : Int) (store : List Publish) (ctype : Nat)
    (entities : List Entity) : List Entity :=
  let all_p := (published now store).filter (fun p => p.content_type == ctype)
  entities.filter (fun e => (all_p.map (fun p => p.object_id)).contains e.pk)

/-- Modelled from the spec: `published_entities_of_type(T)`, worded as
"`published()` filtered to records whose `entity_type == type_of(T)`, then
resolved to concrete entities of type T, preserving the `publish_at`
descending order".  Written from the spec's words, for comparison with
`descriptor_get_on_class` (claim C2). -/
def published_entities_of_type (now : Int) (store : List Publish) (ctype : Nat)
    (entities : List Entity) : List Entity :=
  ((published now store).filter (fun p => p.content_type == ctype)).filterMap
    (fun p => entities.find? (fun e => e.pk == p.object_id))

/-- Strict lexicographic order on `(publish, pk)` used by Django's
`Model._get_next_or_previous_by_FIELD`: the row filter is
`publish < self.publish OR (publish = self.publish AND pk < self.pk)` (and
symmetrically with `>` for `next`), i.e. strictly before `self` in the
`(publish, pk)` lexicographic order. -/
def ltLex (a b : Publish) : Bool :=
  decide (a.publish < b.publish) ||
    (decide (a.publish = b.publish) && decide (a.pk < b.pk))

/-- First row of an `order_by('-publish', '-pk')` queryset: a maximum of the
list in the `(publish, pk)` lexicographic order, `none` on an empty list. -/
def lexMax : List Publish → Option Publish
  | [] => none
  | x :: xs =>
    match lexMax xs with
    | none => some x
    | some m => if ltLex x m then some m else some x

/-- First row of an `order_by('publish', 'pk')` queryset: a minimum of the
list in the `(publish, pk)` lexicographic order, `none` on an empty list. -/
def lexMin : List Publish → Option Publish
  | [] => none
  | x :: xs =>
    match lexMin xs with
    | none => some x
    | some m => if ltLex m x then some m else some x

/-- The exception Django's `_get_next_or_previous_by_FIELD` raises when the
neighbour queryset is empty. -/
inductive DoesNotExist where
  | doesNotExist
deriving DecidableEq

/-- Django's `self.get_previous_by_publish(approved=True)`: filter the table
to `approved=True` rows strictly before `self` in the `(publish, pk)` order,
order by `('-publish', '-pk')` and take the first row; raise `DoesNotExist`
when there is none. -/
def get_previous_by_publish (store : List Publish) (self : Publish) :
    Except DoesNotExist Publish :=
  match lexMax (store.filter (fun r => r.approved && ltLex r self)) with
  | some r => .ok r
  | none => .error .doesNotExist

/-- Django's `self.get_next_by_publish(approved=True)`: the symmetric lookup
after `self`, ordered by `('publish', 'pk')`. -/
def get_next_by_publish (store : List Publish) (self : Publish) :
    Except DoesNotExist Publish :=
  match lexMin (store.filter (fun r => r.approved && ltLex self r)) with
  | some r => .ok r
  | none => .error .doesNotExist

/-- `Publish.get_previous_published`: calls `get_previous_by_publish` (which
raises `DoesNotExist` on an empty result) and dereferences
`prev_pub.content_object`, modelled by the reference pair
`(content_type, object_id)`.  A model instance is always truthy, so the
source's `else: return None` branch is unreachable; the `Option` in the
result type records that the code never actually produces `None`. -/
def get_previous_published (store : List Publish) (self : Publish) :
    Except DoesNotExist (Option (Nat × Nat)) :=
  match get_previous_by_publish store self with
  | .ok prev_pub => .ok (some (prev_pub.content_type, prev_pub.object_id))
  | .error e => .error e

/-- `Publish.get_next_published`: symmetric to `get_previous_published`. -/
def get_next_published (store : List Publish) (self : Publish) :
    Except DoesNotExist (Option (Nat × Nat)) :=
  match get_next_by_publish store self with
  | .ok next_pub => .ok (some (next_pub.content_type, next_pub.object_id))
  | .error e => .error e

/-- The exception Python raises when an attribute read fails. -/
inductive AttrFailure where
  | attributeMissing
deriving DecidableEq

/-- `Publish.get_banner_image`, with `content_object` passed as the resolved
entity.  The source reads `self.content_object.allow_banners` with no
`hasattr` guard, so an entity that does not declare the flag
(`allow_banners = none`) raises; otherwise the fallback chain runs: `None`
when banners are disallowed, else the record's own `banner_image` when set
(non-empty), else the entity's `publish_banner_image` when declared
(guarded by `hasattr`), else `None`. -/
def get_banner_image (self : Publish) (content_object : Entity) :
    Except AttrFailure (Option String) :=
  match content_object.allow_banners with
  | none => .error .attributeMissing
  | some ab =>
    if !ab then .ok none
    else
      if self.banner_image.isSome then .ok self.banner_image
      else
        match content_object.publish_banner_image with
        | some img => .ok (some img)
        | none => .ok none

/-- `Publish.published_humanised`, with the external `timesince` /
`timeuntil` text helpers passed as parameters and `datetime.datetime.now()`
passed as `now` (the source samples it once inside the approved branch). -/
def published_humanised (timesince timeuntil : Int → String) (now : Int)
    (self : Publish) : String :=
  if self.approved then
    if self.publish < now then timesince self.publish ++ " ago.."
    else timeuntil self.publish ++ " left.."
  else "Still needs approval.."

/-- The error a cache backend may raise on a delete operation. -/
inductive CacheFailure where
  | backendUnreachable
deriving DecidableEq

/-- The cache backend collaborator (`django.core.cache.cache`): its delete
operations may fail, e.g. with an unreachable backend. -/
structure CacheBackend where
  delete_many : List String → Except CacheFailure Unit
  delete : String → Except CacheFailure Unit

/-- The derived fragment-cache key
`'template.cache.%s.%s' % (k, md5(u':'.join(urlquote(var) for var in v)).hexdigest())`,
with the external `md5` hexdigest and `urlquote` helpers as parameters. -/
def template_cache_key (md5hex urlquote : String → String) (k : String)
    (v : List String) : String :=
  "template.cache." ++ k ++ "." ++
    md5hex (String.intercalate ":" (v.map urlquote))

/-- `post_save_cache_clear`: delete the configured flat keys with one
`delete_many`, then delete the derived fragment-cache key of each configured
template entry.  The source wraps nothing in try/except, so a backend error
aborts the handler where it occurs. -/
def post_save_cache_clear (cache : CacheBackend)
    (md5hex urlquote : String → String) (clearKeys : List String)
    (templateKeys : List (String × List String)) :
    Except CacheFailure Unit := do
  cache.delete_many clearKeys
  templateKeys.forM fun kv =>
    cache.delete (template_cache_key md5hex urlquote kv.1 kv.2)

/-- A cache backend whose delete operations always fail. -/
def failing_cache : CacheBackend :=
  { delete_many := fun _ => .error .backendUnreachable,
    delete := fun _ => .error .backendUnreachable }

/-- `post_save_published_at`: if the record is approved and the target
entity declares a `published_at` attribute, copy `publish` into it and save
the entity; the second component records whether `content_object.save()`
was called. -/
def post_save_published_at (inst : Publish) (content_object : Entity) :
    Entity × Bool :=
  if inst.approved && content_object.published_at.isSome then
    ({ content_object with published_at := some inst.publish }, true)
  else (content_object, false)

/-- Entity declaring a denormalized `published_at` mirror field. -/
def entM : Entity :=
  { pk := 5, allow_banners := none, publish_banner_image := none,
    published_at := some 0 }

end Publisa

namespace Publisa

/-- C1: for every store and call time `now`, `published()` returns exactly
the records with `approved = true` and `publish ≤ now` (inclusive at exact
equality), and the returned sequence is ordered by `publish` descending. -/
theorem published_exact_and_sorted (now : Int) (store : List Publish) :
    (∀ r : Publish, r ∈ published now store ↔
        (r ∈ store ∧ r.approved = true ∧ r.publish ≤ now)) ∧
    List.Sorted pubDesc (published now store) := by
  constructor
  · intro r
    unfold published
    rw [(List.perm_insertionSort pubDesc (store.filter (visible now))).mem_iff]
    rw [List.mem_filter]
    unfold visible
    simp [Bool.and_eq_true, decide_eq_true_eq, and_assoc]
  · exact List.sorted_insertionSort pubDesc _

/-- A published, bannerless record with `publish = 1` pointing at entity 1. -/
def recA : Publish :=
  { pk := 10, publish := 1, approved := true, banner := true,
    banner_image := none, content_type := 0, object_id := 1 }

/-- A published, bannerless record with `publish = 2` pointing at entity 2. -/
def recB : Publish :=
  { pk := 11, publish := 2, approved := true, banner := true,
    banner_image := none, content_type := 0, object_id := 2 }

/-- Entity with primary key 1 and no reflective attributes declared. -/
def entA : Entity :=
  { pk := 1, allow_banners := none, publish_banner_image := none,
    published_at := none }

/-- Entity with primary key 2 and no reflective attributes declared. -/
def entB : Entity :=
  { pk := 2, allow_banners := none, publish_banner_image := none,
    published_at := none }

/-- An unapproved record. -/
def recC : Publish :=
  { pk := 12, publish := 3, approved := false, banner := true,
    banner_image := none, content_type := 0, object_id := 3 }

/-- An approved record with no banner image of its own. -/
def recD : Publish :=
  { pk := 13, publish := 4, approved := true, banner := true,
    banner_image := none, content_type := 0, object_id := 4 }

/-- Entity that allows banners but declares no banner-image override. -/
def entD : Entity :=
  { pk := 4, allow_banners := some true, publish_banner_image := none,
    published_at := none }

/-- C2 counterexample: with the entity table stored as `[entA, entB]` and
entity 2 published later than entity 1, the class-level descriptor read
returns `[entA, entB]` (the entity table's own order) while the spec's
`published_entities_of_type` — publish descending — gives `[entB, entA]`.
The descriptor does not preserve the `publish` descending order. -/
theorem descriptor_order_counterexample :
    descriptor_get_on_class 5 [recA, recB] 0 [entA, entB] ≠
      published_entities_of_type 5 [recA, recB] 0 [entA, entB] := by
  decide

/-- C2 amended: the class-level descriptor read returns exactly the entities
of the table that some published record of the model's content type points
at, but ordered as a sublist of the entity table (the entity model's own
ordering), not by `publish` descending. -/
theorem descriptor_get_on_class_spec (now : Int) (store : List Publish)
    (ctype : Nat) (entities : List Entity) :
    List.Sublist (descriptor_get_on_class now store ctype entities) entities ∧
    ∀ e : Entity, e ∈ descriptor_get_on_class now store ctype entities ↔
      (e ∈ entities ∧
        ∃ p ∈ published now store, p.content_type = ctype ∧ p.object_id = e.pk) := by
  constructor
  · exact List.filter_sublist entities
  · intro e
    unfold descriptor_get_on_class
    simp only [List.mem_filter, List.contains, List.elem_eq_mem, List.mem_map,
      decide_eq_true_eq, beq_iff_eq]
    constructor
    · rintro ⟨he, p, ⟨hp, hct⟩, hid⟩
      exact ⟨he, p, hp, hct, hid⟩
    · rintro ⟨he, p, hp, hct, hid⟩
      exact ⟨he, p, ⟨hp, hct⟩, hid⟩

theorem ltLex_irrefl (a : Publish) : ltLex a a = false := by
  simp [ltLex]

theorem ltLex_asymm {a b : Publish} (h : ltLex a b = true) :
    ltLex b a = false := by
  simp [ltLex] at h ⊢
  omega

theorem ltLex_neg_trans {a b c : Publish} (h1 : ltLex a b = false)
    (h2 : ltLex b c = false) : ltLex a c = false := by
  simp [ltLex] at h1 h2 ⊢
  omega

theorem lexMax_cons_ne_none (x : Publish) (xs : List Publish) :
    lexMax (x :: xs) ≠ none := by
  intro h
  cases hxs : lexMax xs with
  | none =>
    unfold lexMax at h
    rw [hxs] at h
    exact Option.noConfusion h
  | some m =>
    unfold lexMax at h
    rw [hxs] at h
    have h' : (if ltLex x m = true then some m else some x) = none := h
    by_cases hcmp : ltLex x m = true
    · rw [if_pos hcmp] at h'
      exact Option.noConfusion h'
    · rw [if_neg hcmp] at h'
      exact Option.noConfusion h'

theorem lexMin_cons_ne_none (x : Publish) (xs : List Publish) :
    lexMin (x :: xs) ≠ none := by
  intro h
  cases hxs : lexMin xs with
  | none =>
    unfold lexMin at h
    rw [hxs] at h
    exact Option.noConfusion h
  | some m =>
    unfold lexMin at h
    rw [hxs] at h
    have h' : (if ltLex m x = true then some m else some x) = none := h
    by_cases hcmp : ltLex m x = true
    · rw [if_pos hcmp] at h'
      exact Option.noConfusion h'
    · rw [if_neg hcmp] at h'
      exact Option.noConfusion h'

theorem lexMax_spec :
    ∀ (l : List Publish) (m : Publish), lexMax l = some m →
      m ∈ l ∧ ∀ y ∈ l, ltLex m y = false := by
  intro l
  induction l with
  | nil => intro m h; simp [lexMax] at h
  | cons x xs ih =>
    intro m h
    unfold lexMax at h
    cases hxs : lexMax xs with
    | none =>
      rw [hxs] at h
      have hx : x = m := Option.some.inj h
      have hnil : xs = [] := by
        cases xs with
        | nil => rfl
        | cons a as => exact absurd hxs (lexMax_cons_ne_none a as)
      subst hnil
      constructor
      · rw [← hx]
        exact List.mem_cons_self x []
      · intro y hy
        rcases List.mem_cons.mp hy with h1 | h2
        · rw [h1, ← hx]
          exact ltLex_irrefl x
        · simp at h2
    | some m' =>
      rw [hxs] at h
      have h' : (if ltLex x m' = true then some m' else some x) = some m := h
      obtain ⟨hmem, hmax⟩ := ih m' hxs
      by_cases hcmp : ltLex x m' = true
      · rw [if_pos hcmp] at h'
        have hm : m' = m := Option.some.inj h'
        constructor
        · rw [← hm]
          exact List.mem_cons_of_mem x hmem
        · intro y hy
          rw [← hm]
          rcases List.mem_cons.mp hy with h1 | h2
          · rw [h1]
            exact ltLex_asymm hcmp
          · exact hmax y h2
      · rw [if_neg hcmp] at h'
        have hm : x = m := Option.some.inj h'
        constructor
        · rw [← hm]
          exact List.mem_cons_self x xs
        · intro y hy
          rw [← hm]
          rcases List.mem_cons.mp hy with h1 | h2
          · rw [h1]
            exact ltLex_irrefl x
          · exact ltLex_neg_trans (Bool.eq_false_iff.mpr hcmp) (hmax y h2)

theorem lexMin_spec :
    ∀ (l : List Publish) (m : Publish), lexMin l = some m →
      m ∈ l ∧ ∀ y ∈ l, ltLex y m = false := by
  intro l
  induction l with
  | nil => intro m h; simp [lexMin] at h
  | cons x xs ih =>
    intro m h
    unfold lexMin at h
    cases hxs : lexMin xs with
    | none =>
      rw [hxs] at h
      have hx : x = m := Option.some.inj h
      have hnil : xs = [] := by
        cases xs with
        | nil => rfl
        | cons a as => exact absurd hxs (lexMin_cons_ne_none a as)
      subst hnil
      constructor
      · rw [← hx]
        exact List.mem_cons_self x []
      · intro y hy
        rcases List.mem_cons.mp hy with h1 | h2
        · rw [h1, ← hx]
          exact ltLex_irrefl x
        · simp at h2
    | some m' =>
      rw [hxs] at h
      have h' : (if ltLex m' x = true then some m' else some x) = some m := h
      obtain ⟨hmem, hmin⟩ := ih m' hxs
      by_cases hcmp : ltLex m' x = true
      · rw [if_pos hcmp] at h'
        have hm : m' = m := Option.some.inj h'
        constructor
        · rw [← hm]
          exact List.mem_cons_of_mem x hmem
        · intro y hy
          rw [← hm]
          rcases List.mem_cons.mp hy with h1 | h2
          · rw [h1]
            exact ltLex_asymm hcmp
          · exact hmin y h2
      · rw [if_neg hcmp] at h'
        have hm : x = m := Option.some.inj h'
        constructor
        · rw [← hm]
          exact List.mem_cons_self x xs
        · intro y hy
          rw [← hm]
          rcases List.mem_cons.mp hy with h1 | h2
          · rw [h1]
            exact ltLex_irrefl x
          · exact ltLex_neg_trans (hmin y h2) (Bool.eq_false_iff.mpr hcmp)

/-- C3: evaluated at a store holding a single approved record, both
neighbour lookups raise `DoesNotExist` instead of returning the explicit
`None` their docstrings promise — `get_previous_by_publish` /
`get_next_by_publish` raise when no neighbour exists, so the
`else: return None` branches are unreachable. -/
theorem neighbour_absent_raises :
    get_previous_published [recA] recA = .error .doesNotExist ∧
    get_next_published [recA] recA = .error .doesNotExist :=
  ⟨rfl, rfl⟩

/-- C8: whenever `get_previous_published` (resp. `get_next_published`)
returns an entity reference, the backing record is in the store, has
`approved = true`, lies strictly before (resp. after) `self` in the
`(publish, pk)` lexicographic order — `pk` breaking ties on equal `publish`
— and is the closest such record: no other approved record lies strictly
between it and `self` in that order. -/
theorem neighbours_approved_and_ordered (store : List Publish) (self : Publish) :
    (∀ ref, get_previous_published store self = .ok ref →
      ∃ r ∈ store, ref = some (r.content_type, r.object_id) ∧
        r.approved = true ∧ ltLex r self = true ∧
        ∀ y ∈ store, y.approved = true → ltLex y self = true →
          ltLex r y = false) ∧
    (∀ ref, get_next_published store self = .ok ref →
      ∃ r ∈ store, ref = some (r.content_type, r.object_id) ∧
        r.approved = true ∧ ltLex self r = true ∧
        ∀ y ∈ store, y.approved = true → ltLex self y = true →
          ltLex y r = false) := by
  constructor
  · intro ref h
    unfold get_previous_published get_previous_by_publish at h
    cases hmax : lexMax (store.filter (fun r => r.approved && ltLex r self)) with
    | none => rw [hmax] at h; exact absurd h (by simp)
    | some m =>
      rw [hmax] at h
      simp at h
      obtain ⟨hmem, hbest⟩ := lexMax_spec _ m hmax
      rw [List.mem_filter] at hmem
      obtain ⟨hstore, hcond⟩ := hmem
      rw [Bool.and_eq_true] at hcond
      refine ⟨m, hstore, h.symm, hcond.1, hcond.2, ?_⟩
      intro y hy hyap hylt
      exact hbest y (List.mem_filter.mpr ⟨hy, by rw [Bool.and_eq_true]; exact ⟨hyap, hylt⟩⟩)
  · intro ref h
    unfold get_next_published get_next_by_publish at h
    cases hmin : lexMin (store.filter (fun r => r.approved && ltLex self r)) with
    | none => rw [hmin] at h; exact absurd h (by simp)
    | some m =>
      rw [hmin] at h
      simp at h
      obtain ⟨hmem, hbest⟩ := lexMin_spec _ m hmin
      rw [List.mem_filter] at hmem
      obtain ⟨hstore, hcond⟩ := hmem
      rw [Bool.and_eq_true] at hcond
      refine ⟨m, hstore, h.symm, hcond.1, hcond.2, ?_⟩
      intro y hy hyap hylt
      exact hbest y (List.mem_filter.mpr ⟨hy, by rw [Bool.and_eq_true]; exact ⟨hyap, hylt⟩⟩)

/-- Witness for C8 at a concrete two-record store: the hypotheses hold
(`get_previous_published` of the later record returns the earlier record's
reference and `get_next_published` of the earlier returns the later's), and
the theorem's conclusions follow. -/
theorem neighbours_approved_and_ordered_witness :
    (get_previous_published [recA, recB] recB = .ok (some (0, 1))) ∧
    (get_next_published [recA, recB] recA = .ok (some (0, 2))) ∧
    (∃ r ∈ [recA, recB], (some ((0 : Nat), (1 : Nat))) = some (r.content_type, r.object_id) ∧
      r.approved = true ∧ ltLex r recB = true ∧
      ∀ y ∈ [recA, recB], y.approved = true → ltLex y recB = true →
        ltLex r y = false) ∧
    (∃ r ∈ [recA, recB], (some ((0 : Nat), (2 : Nat))) = some (r.content_type, r.object_id) ∧
      r.approved = true ∧ ltLex recA r = true ∧
      ∀ y ∈ [recA, recB], y.approved = true → ltLex recA y = true →
        ltLex y r = false) :=
  ⟨rfl, rfl,
    (neighbours_approved_and_ordered [recA, recB] recB).1 (some (0, 1)) rfl,
    (neighbours_approved_and_ordered [recA, recB] recA).2 (some (0, 2)) rfl⟩

/-- C6: for a record whose entity declares the `allow_banners` flag,
`get_banner_image` follows the fallback chain — absent when banners are
disallowed; else the record's own banner image when set; else the entity's
`publish_banner_image` override when declared; else absent (in particular a
record with no banner image whose entity declares no override yields
absent). -/
theorem banner_fallback_chain (p : Publish) (e : Entity) (ab : Bool)
    (h : e.allow_banners = some ab) :
    (ab = false → get_banner_image p e = .ok none) ∧
    (ab = true → ∀ i, p.banner_image = some i →
      get_banner_image p e = .ok (some i)) ∧
    (ab = true → p.banner_image = none →
      ∀ j, e.publish_banner_image = some j →
        get_banner_image p e = .ok (some j)) ∧
    (ab = true → p.banner_image = none → e.publish_banner_image = none →
      get_banner_image p e = .ok none) := by
  refine ⟨?_, ?_, ?_, ?_⟩
  · intro hab
    subst hab
    simp [get_banner_image, h]
  · intro hab i hi
    subst hab
    simp [get_banner_image, h, hi]
  · intro hab hbi j hj
    subst hab
    simp [get_banner_image, h, hbi, hj]
  · intro hab hbi hj
    subst hab
    simp [get_banner_image, h, hbi, hj]

/-- Witness for C6 at the spec's scenario D: `recD` has no banner image and
its entity `entD` allows banners but declares no override, so the resolved
banner image is absent. -/
theorem banner_fallback_chain_witness :
    entD.allow_banners = some true ∧
    get_banner_image recD entD = .ok none :=
  ⟨rfl, (banner_fallback_chain recD entD true rfl).2.2.2 rfl rfl rfl⟩

/-- C9: `get_banner_image` reads the entity's `allow_banners` attribute with
no `hasattr` guard: when the entity does not declare it the call raises an
attribute error instead of returning absent, and the ok/fallback branches
are reached exactly when the flag is declared. -/
theorem banner_requires_flag (p : Publish) (e : Entity) :
    (e.allow_banners = none →
      get_banner_image p e = .error .attributeMissing) ∧
    (∀ ab, e.allow_banners = some ab →
      ∃ o, get_banner_image p e = .ok o) := by
  constructor
  · intro h
    simp [get_banner_image, h]
  · intro ab h
    cases ab with
    | false => exact ⟨none, by simp [get_banner_image, h]⟩
    | true =>
      by_cases hbi : p.banner_image.isSome = true
      · exact ⟨p.banner_image, by simp [get_banner_image, h, hbi]⟩
      · cases hpb : e.publish_banner_image with
        | some j => exact ⟨some j, by simp [get_banner_image, h, hbi, hpb]⟩
        | none => exact ⟨none, by simp [get_banner_image, h, hbi, hpb]⟩

/-- Witness for C9: `entA` declares no `allow_banners` attribute, so the
lookup on `recA` fails with the attribute error. -/
theorem banner_requires_flag_witness :
    get_banner_image recA entA = .error .attributeMissing :=
  (banner_requires_flag recA entA).1 rfl

/-- C5: `published_humanised` is three-way — an unapproved record yields the
awaiting-approval text regardless of `publish`; an approved record yields
the time-remaining form when `publish` is in the future relative to `now`
and the time-elapsed form when `publish` is in the past. -/
theorem humanised_three_way (timesince timeuntil : Int → String) (now : Int)
    (p : Publish) :
    (p.approved = false →
      published_humanised timesince timeuntil now p = "Still needs approval..") ∧
    (p.approved = true → now < p.publish →
      published_humanised timesince timeuntil now p =
        timeuntil p.publish ++ " left..") ∧
    (p.approved = true → p.publish < now →
      published_humanised timesince timeuntil now p =
        timesince p.publish ++ " ago..") := by
  refine ⟨?_, ?_, ?_⟩
  · intro h
    simp [published_humanised, h]
  · intro h hlt
    have hn : ¬(p.publish < now) := not_lt.mpr (le_of_lt hlt)
    simp [published_humanised, h, hn]
  · intro h hlt
    simp [published_humanised, h, hlt]

/-- Witness for C5: the unapproved `recC` yields the awaiting text at any
time; the approved `recA` (`publish = 1`) yields the remaining form at
`now = 0` and the elapsed form at `now = 5`. -/
theorem humanised_three_way_witness :
    recC.approved = false ∧ recA.approved = true ∧
    published_humanised (fun _ => "S") (fun _ => "U") 5 recC =
      "Still needs approval.." ∧
    published_humanised (fun _ => "S") (fun _ => "U") 0 recA = "U left.." ∧
    published_humanised (fun _ => "S") (fun _ => "U") 5 recA = "S ago.." :=
  ⟨rfl, rfl,
   (humanised_three_way (fun _ => "S") (fun _ => "U") 5 recC).1 rfl,
   (humanised_three_way (fun _ => "S") (fun _ => "U") 0 recA).2.1 rfl (by decide),
   (humanised_three_way (fun _ => "S") (fun _ => "U") 5 recA).2.2 rfl (by decide)⟩

/-- C10: at the exact boundary instant `now = publish`, an approved record's
`published_humanised` takes the time-remaining branch (the elapsed branch
needs `now > publish` strictly), while at that same instant the record
already satisfies the visibility predicate of `published()`. -/
theorem humanised_boundary_remaining (timesince timeuntil : Int → String)
    (p : Publish) (h : p.approved = true) :
    published_humanised timesince timeuntil p.publish p =
      timeuntil p.publish ++ " left.." ∧
    visible p.publish p = true := by
  constructor
  · simp [published_humanised, h]
  · simp [visible, h]

/-- Witness for C10 at the approved record `recA` and `now = recA.publish`. -/
theorem humanised_boundary_remaining_witness :
    recA.approved = true ∧
    (published_humanised (fun _ => "S") (fun _ => "U") recA.publish recA =
        (fun _ : Int => "U") recA.publish ++ " left.." ∧
      visible recA.publish recA = true) :=
  ⟨rfl, humanised_boundary_remaining (fun _ => "S") (fun _ => "U") recA rfl⟩

theorem except_forM_ok_iff {α : Type} (f : α → Except CacheFailure Unit) :
    ∀ l : List α, l.forM f = .ok () ↔ ∀ x ∈ l, f x = .ok () := by
  intro l
  induction l with
  | nil =>
    constructor
    · intro _ x hx
      simp at hx
    · intro _
      rfl
  | cons a as ih =>
    have hstep : (a :: as).forM f = (f a >>= fun _ => as.forM f) := rfl
    rw [hstep]
    cases hfa : f a with
    | error e =>
      constructor
      · intro h
        exact Except.noConfusion h
      · intro h
        have hc := h a (List.mem_cons_self a as)
        rw [hfa] at hc
        exact Except.noConfusion hc
    | ok u =>
      cases u
      constructor
      · intro h x hx
        rcases List.mem_cons.mp hx with h1 | h2
        · rw [h1]
          exact hfa
        · exact (ih.mp h) x h2
      · intro h
        exact ih.mpr fun x hx => h x (List.mem_cons_of_mem a hx)

/-- C4 counterexample: with an unreachable cache backend, the invalidation
hook returns the backend's error to its caller — the error is not caught at
the invalidation boundary. -/
theorem cache_error_propagates :
    post_save_cache_clear failing_cache (fun s => s) (fun s => s)
      ["frontpage"] [] = .error .backendUnreachable :=
  rfl

/-- C4 amended: `post_save_cache_clear` catches nothing — it succeeds
exactly when the flat-key `delete_many` and every per-template-key `delete`
succeed, so any cache-backend error during invalidation propagates to the
caller of the triggering record write. -/
theorem cache_clear_ok_iff (cache : CacheBackend)
    (md5hex urlquote : String → String) (clearKeys : List String)
    (templateKeys : List (String × List String)) :
    post_save_cache_clear cache md5hex urlquote clearKeys templateKeys =
        .ok () ↔
      (cache.delete_many clearKeys = .ok () ∧
        ∀ kv ∈ templateKeys,
          cache.delete (template_cache_key md5hex urlquote kv.1 kv.2) =
            .ok ()) := by
  unfold post_save_cache_clear
  cases hdm : cache.delete_many clearKeys with
  | error e =>
    constructor
    · intro h
      exact Except.noConfusion h
    · rintro ⟨h1, -⟩
      exact Except.noConfusion h1
  | ok u =>
    cases u
    constructor
    · intro h
      exact ⟨rfl, (except_forM_ok_iff _ templateKeys).mp h⟩
    · rintro ⟨-, h2⟩
      exact (except_forM_ok_iff _ templateKeys).mpr h2

/-- C7: after a write of a record whose entity declares the `published_at`
mirror field, an approved record copies `publish` into the mirror and the
entity is saved; an unapproved record leaves the entity untouched and
unsaved. -/
theorem mirror_field_updated (inst : Publish) (e : Entity) (t : Int)
    (h : e.published_at = some t) :
    (inst.approved = true →
      post_save_published_at inst e =
        ({ e with published_at := some inst.publish }, true)) ∧
    (inst.approved = false →
      post_save_published_at inst e = (e, false)) := by
  constructor
  · intro ha
    simp [post_save_published_at, ha, h]
  · intro ha
    simp [post_save_published_at, ha]

/-- Witness for C7: writing the approved `recA` (`publish = 1`) against the
mirror-declaring entity `entM` sets the mirror to `1` and saves; writing the
unapproved `recC` leaves `entM` unchanged. -/
theorem mirror_field_updated_witness :
    entM.published_at = some 0 ∧ recA.approved = true ∧ recC.approved = false ∧
    post_save_published_at recA entM =
      ({ entM with published_at := some recA.publish }, true) ∧
    post_save_published_at recC entM = (entM, false) :=
  ⟨rfl, rfl, rfl,
   (mirror_field_updated recA entM 0 rfl).1 rfl,
   (mirror_field_updated recC entM 0 rfl).2 rfl⟩

end Publisa
